import Mathlib

/-!
Verification of the agent client in
`src/projects/daily-assistant/web/src/api.ts`:

```
export async function askAgent(prompt: string) {
  const res = await fetch("http://localhost:8001/agent", {
    method: "POST",
    headers: { "Content-Type": "application/json" },
    body: JSON.stringify({ prompt })
  });
  return await res.json();
}
```

The client is embedded shallowly.  JavaScript's `JSON.stringify` and the
`Response.json()` decoder (ECMA-404 / ECMA-262 `JSON.parse`) are modelled
by executable Lean functions `Json.stringify` and `Json.parse` over an
inductive JSON value type (numbers are restricted to integers; JavaScript
strings are modelled by Lean strings, i.e. well-formed Unicode text).
`fetch` is modelled by an oracle `Request → FetchOutcome` describing the
network; `askAgent` is first written as a program in a tiny free monad
`FetchM` whose only effect is issuing one HTTP request, mirroring the
single `await fetch(...)` in the source, and then run against the oracle,
yielding both the result and the trace of requests issued.
-/

/-- The JSON value type: the possible results of a successful body decode. -/
inductive Json where
  | null : Json
  | bool (b : Bool) : Json
  | num (n : Int) : Json
  | str (s : String) : Json
  | arr (elems : List Json) : Json
  | obj (members : List (String × Json)) : Json
deriving Repr

/-- Lower-case hexadecimal digit for a value below 16, as emitted by
JavaScript string escaping. -/
def hexDigit (n : Nat) : Char :=
  if n = 0 then '0' else if n = 1 then '1' else if n = 2 then '2'
  else if n = 3 then '3' else if n = 4 then '4' else if n = 5 then '5'
  else if n = 6 then '6' else if n = 7 then '7' else if n = 8 then '8'
  else if n = 9 then '9' else if n = 10 then 'a' else if n = 11 then 'b'
  else if n = 12 then 'c' else if n = 13 then 'd' else if n = 14 then 'e'
  else 'f'

/-- The escape sequence `JSON.stringify` emits for one character of a
string: quote and backslash get a backslash escape, the control
characters with short forms use them, the remaining control characters
use a `\u00xx` escape, and every other character stands for itself. -/
def escapeChar (c : Char) : List Char :=
  if c = '"' then ['\\', '"']
  else if c = '\\' then ['\\', '\\']
  else if c = '\x08' then ['\\', 'b']
  else if c = '\x09' then ['\\', 't']
  else if c = '\x0a' then ['\\', 'n']
  else if c = '\x0c' then ['\\', 'f']
  else if c = '\x0d' then ['\\', 'r']
  else if c.toNat < 32 then
    ['\\', 'u', '0', '0', hexDigit (c.toNat / 16), hexDigit (c.toNat % 16)]
  else [c]

/-- Escape every character of a string body in turn. -/
def escapeList : List Char → List Char
  | [] => []
  | c :: cs => escapeChar c ++ escapeList cs

mutual

/-- Characters of the `JSON.stringify` serialization of a JSON value. -/
def stringifyChars : Json → List Char
  | .null => "null".data
  | .bool b => (cond b "true" "false").data
  | .num n => (toString n).data
  | .str s => '"' :: (escapeList s.data ++ ['"'])
  | .arr elems => '\x5b' :: (stringifyArr elems ++ ['\x5d'])
  | .obj members => '\x7b' :: (stringifyObj members ++ ['\x7d'])

/-- Comma-separated serialization of array elements. -/
def stringifyArr : List Json → List Char
  | [] => []
  | [x] => stringifyChars x
  | x :: y :: xs => stringifyChars x ++ ',' :: stringifyArr (y :: xs)

/-- Comma-separated serialization of object members. -/
def stringifyObj : List (String × Json) → List Char
  | [] => []
  | [(k, v)] => '"' :: (escapeList k.data ++ '"' :: ':' :: stringifyChars v)
  | (k, v) :: m :: ms =>
      '"' :: (escapeList k.data ++ '"' :: ':' :: stringifyChars v)
        ++ ',' :: stringifyObj (m :: ms)

end

/-- Model of `JSON.stringify` on JSON-representable values. -/
def Json.stringify (j : Json) : String :=
  String.mk (stringifyChars j)

/-- Numeric value of one hexadecimal digit, if any (both cases accepted,
as in JSON `\uXXXX` escapes). -/
def hexVal (c : Char) : Option Nat :=
  if c = '0' then some 0 else if c = '1' then some 1
  else if c = '2' then some 2 else if c = '3' then some 3
  else if c = '4' then some 4 else if c = '5' then some 5
  else if c = '6' then some 6 else if c = '7' then some 7
  else if c = '8' then some 8 else if c = '9' then some 9
  else if c = 'a' then some 10 else if c = 'b' then some 11
  else if c = 'c' then some 12 else if c = 'd' then some 13
  else if c = 'e' then some 14 else if c = 'f' then some 15
  else if c = 'A' then some 10 else if c = 'B' then some 11
  else if c = 'C' then some 12 else if c = 'D' then some 13
  else if c = 'E' then some 14 else if c = 'F' then some 15
  else none

/-- Drop the JSON whitespace characters (space, tab, line feed, carriage
return) from the front of the input. -/
def skipWs : List Char → List Char
  | [] => []
  | c :: cs =>
    if c = ' ' ∨ c = '\x09' ∨ c = '\x0a' ∨ c = '\x0d' then skipWs cs
    else c :: cs

/-- Prepend a decoded character to the pending string-parse result. -/
def consStr (c : Char) : Option (List Char × List Char) → Option (List Char × List Char)
  | none => none
  | some (s, r) => some (c :: s, r)

/-- Parse the body of a JSON string literal, positioned just after the
opening quote: decode escape sequences, reject raw control characters,
stop at the closing quote and return the decoded characters together
with the input that follows the closing quote. -/
def parseStringBody : List Char → Option (List Char × List Char)
  | [] => none
  | c :: cs =>
    if c = '"' then some ([], cs)
    else if c = '\\' then
      match cs with
      | [] => none
      | e :: cs2 =>
        if e = '"' then consStr '"' (parseStringBody cs2)
        else if e = '\\' then consStr '\\' (parseStringBody cs2)
        else if e = '/' then consStr '/' (parseStringBody cs2)
        else if e = 'b' then consStr '\x08' (parseStringBody cs2)
        else if e = 'f' then consStr '\x0c' (parseStringBody cs2)
        else if e = 'n' then consStr '\x0a' (parseStringBody cs2)
        else if e = 'r' then consStr '\x0d' (parseStringBody cs2)
        else if e = 't' then consStr '\x09' (parseStringBody cs2)
        else if e = 'u' then
          match cs2 with
          | h1 :: h2 :: h3 :: h4 :: cs3 =>
            match hexVal h1, hexVal h2, hexVal h3, hexVal h4 with
            | some a, some b, some g, some d =>
              if _h : Nat.isValidChar (((a * 16 + b) * 16 + g) * 16 + d) then
                consStr (Char.ofNat (((a * 16 + b) * 16 + g) * 16 + d))
                  (parseStringBody cs3)
              else none
            | _, _, _, _ => none
          | _ => none
        else none
    else if c.toNat < 32 then none
    else consStr c (parseStringBody cs)

/-- Accumulate further decimal digits of a number token. -/
def takeDigits : List Char → Nat → Nat × List Char
  | [], acc => (acc, [])
  | c :: cs, acc =>
    if c.isDigit then takeDigits cs (acc * 10 + (c.toNat - 48))
    else (acc, c :: cs)

/-- Parse an unsigned JSON integer token: a lone zero, or a nonzero
leading digit followed by further digits. -/
def parseNatToken : List Char → Option (Nat × List Char)
  | [] => none
  | c :: cs =>
    if c = '0' then some (0, cs)
    else if c.isDigit then some (takeDigits cs (c.toNat - 48))
    else none

/-- Parse an optionally negated JSON integer token. -/
def parseIntToken : List Char → Option (Int × List Char)
  | '-' :: cs => (parseNatToken cs).map (fun r => (-(r.1 : Int), r.2))
  | cs => (parseNatToken cs).map (fun r => ((r.1 : Int), r.2))

mutual

/-- Parse one JSON value after skipping leading whitespace, returning the
value and the unconsumed rest of the input.  The fuel argument bounds the
nesting the parser will follow; `Json.parse` supplies enough for any
input it is given. -/
def parseValue : Nat → List Char → Option (Json × List Char)
  | 0, _ => none
  | f + 1, l =>
    match skipWs l with
    | [] => none
    | c :: cs =>
      if c = '"' then
        match parseStringBody cs with
        | some (body, rest) => some (.str (String.mk body), rest)
        | none => none
      else if c = '\x7b' then
        match skipWs cs with
        | '\x7d' :: rest => some (.obj [], rest)
        | cs2 =>
          match parseMembers f cs2 with
          | some (ms, rest) => some (.obj ms, rest)
          | none => none
      else if c = '\x5b' then
        match skipWs cs with
        | '\x5d' :: rest => some (.arr [], rest)
        | cs2 =>
          match parseElements f cs2 with
          | some (es, rest) => some (.arr es, rest)
          | none => none
      else if c = 't' then
        match cs with
        | 'r' :: 'u' :: 'e' :: rest => some (.bool true, rest)
        | _ => none
      else if c = 'f' then
        match cs with
        | 'a' :: 'l' :: 's' :: 'e' :: rest => some (.bool false, rest)
        | _ => none
      else if c = 'n' then
        match cs with
        | 'u' :: 'l' :: 'l' :: rest => some (.null, rest)
        | _ => none
      else if c = '-' ∨ c.isDigit then
        match parseIntToken (c :: cs) with
        | some (n, rest) => some (.num n, rest)
        | none => none
      else none

/-- Parse the members of a JSON object, positioned (after whitespace) at
the opening quote of the first key; consumes the closing brace. -/
def parseMembers : Nat → List Char → Option (List (String × Json) × List Char)
  | 0, _ => none
  | f + 1, l =>
    match l with
    | '"' :: cs =>
      match parseStringBody cs with
      | some (key, rest1) =>
        match skipWs rest1 with
        | ':' :: rest2 =>
          match parseValue f rest2 with
          | some (v, rest3) =>
            match skipWs rest3 with
            | ',' :: rest4 =>
              match parseMembers f (skipWs rest4) with
              | some (ms, rest5) => some ((String.mk key, v) :: ms, rest5)
              | none => none
            | '\x7d' :: rest4 => some ([(String.mk key, v)], rest4)
            | _ => none
          | none => none
        | _ => none
      | none => none
    | _ => none

/-- Parse the elements of a JSON array, positioned at the first element;
consumes the closing bracket. -/
def parseElements : Nat → List Char → Option (List Json × List Char)
  | 0, _ => none
  | f + 1, l =>
    match parseValue f l with
    | some (v, rest1) =>
      match skipWs rest1 with
      | ',' :: rest2 =>
        match parseElements f (skipWs rest2) with
        | some (es, rest3) => some (v :: es, rest3)
        | none => none
      | '\x5d' :: rest2 => some ([v], rest2)
      | _ => none
    | none => none

end

/-- Model of JSON text decoding as performed by `Response.json()`
(ECMA-262 `JSON.parse`): parse one value, allow trailing whitespace,
reject any other trailing input.  Numbers are restricted to integers in
this model. -/
def Json.parse (s : String) : Option Json :=
  match parseValue (s.data.length + 1) s.data with
  | some (v, rest) => if skipWs rest = [] then some v else none
  | none => none

/-- An outgoing HTTP request as assembled by `fetch(url, init)`: the
fields of the source's `fetch` call. -/
structure Request where
  url : String
  method : String
  headers : List (String × String)
  body : String
deriving DecidableEq, Repr

/-- The outcome `fetch` delivers for a request: either an HTTP response
(status, headers, raw body text) — for any status, success or not — or a
rejection with a transport error (connection refused, timeout, DNS
failure). -/
inductive FetchOutcome where
  | success (status : Nat) (headers : List (String × String)) (body : String)
  | transportError (msg : String)
deriving DecidableEq, Repr

/-- The failures `askAgent` can propagate to its caller: a transport
error from `fetch`, or a decode error from `res.json()` carrying the
undecodable body. -/
inductive AgentError where
  | transport (msg : String)
  | decode (body : String)
deriving DecidableEq, Repr

/-- Programs whose only effect is issuing HTTP requests: either finished
with a result, or suspended on one `fetch` whose continuation receives
the outcome.  This mirrors the async/await structure of the source. -/
inductive FetchM (α : Type) where
  | pure (a : α) : FetchM α
  | fetch (req : Request) (k : FetchOutcome → FetchM α) : FetchM α

/-- A network oracle: what the outside world does with each request. -/
def Server : Type := Request → FetchOutcome

/-- Run an effectful program against a network oracle, collecting the
trace of requests issued in order. -/
def FetchM.run {α : Type} : FetchM α → Server → α × List Request
  | .pure a, _ => (a, [])
  | .fetch req k, server =>
    let r := FetchM.run (k (server req)) server
    (r.1, req :: r.2)

/-- The JSON payload `{ prompt }` of the source, as a JSON value. -/
def promptJson (prompt : String) : Json :=
  Json.obj [("prompt", Json.str prompt)]

/-- The exact request the source's `fetch` call assembles: fixed URL,
method `POST`, the one `Content-Type` header, and body
`JSON.stringify({ prompt })`. -/
def mkRequest (prompt : String) : Request :=
  { url := "http://localhost:8001/agent"
    method := "POST"
    headers := [("Content-Type", "application/json")]
    body := (promptJson prompt).stringify }

/-- What `askAgent` does with the outcome of its single `fetch`: a
transport rejection propagates; otherwise `res.json()` decodes the body,
returning the decoded value or propagating a decode error.  The status
code and response headers are not consulted. -/
def handleResponse : FetchOutcome → Except AgentError Json
  | .transportError m => .error (.transport m)
  | .success _ _ body =>
    match Json.parse body with
    | some j => .ok j
    | none => .error (.decode body)

/-- The source's `askAgent` as an effectful program: one `fetch` of
`mkRequest prompt`, whose outcome is handled by `handleResponse` —
nothing else. -/
def askAgentM (prompt : String) : FetchM (Except AgentError Json) :=
  .fetch (mkRequest prompt) (fun res => .pure (handleResponse res))

/-- One call `askAgent(prompt)` against a given network: the value the
caller receives (or the propagated failure) together with the trace of
requests the call issued. -/
def askAgent (server : Server) (prompt : String) :
    Except AgentError Json × List Request :=
  (askAgentM prompt).run server

/-- A JavaScript value in a position where JSON data is expected,
including `undefined`, which `JSON.stringify` does not represent. -/
inductive JsValue where
  | undef : JsValue
  | null : JsValue
  | bool (b : Bool) : JsValue
  | num (n : Int) : JsValue
  | str (s : String) : JsValue
  | arr (elems : List JsValue) : JsValue
  | obj (members : List (String × JsValue)) : JsValue

mutual

/-- The JSON value `JSON.stringify` would serialize for a JavaScript
value, if any: `undefined` at top level produces no output, `undefined`
array elements become `null`, members with `undefined` values are
dropped. -/
def toJson : JsValue → Option Json
  | .undef => none
  | .null => some .null
  | .bool b => some (.bool b)
  | .num n => some (.num n)
  | .str s => some (.str s)
  | .arr elems => some (.arr (toJsonArr elems))
  | .obj members => some (.obj (toJsonObj members))

/-- Array elements under `JSON.stringify`. -/
def toJsonArr : List JsValue → List Json
  | [] => []
  | v :: vs =>
    (match toJson v with
     | some j => j
     | none => Json.null) :: toJsonArr vs

/-- Object members under `JSON.stringify`. -/
def toJsonObj : List (String × JsValue) → List (String × Json)
  | [] => []
  | (k, v) :: vs =>
    match toJson v with
    | some j => (k, j) :: toJsonObj vs
    | none => toJsonObj vs

end

/-- Model of `JSON.stringify` applied to a JavaScript value: the
serialized text, when the value is representable at all. -/
def jsStringify (v : JsValue) : Option String :=
  (toJson v).map Json.stringify

/-- The argument `{ prompt }` of the source's `JSON.stringify` call, as
a JavaScript value. -/
def promptValue (prompt : String) : JsValue :=
  JsValue.obj [("prompt", JsValue.str prompt)]

/-!
Theorems.  First the serialization round trip, then the claims about
`askAgent`.
-/

theorem hexVal_hexDigit (n : Nat) (h : n < 16) : hexVal (hexDigit n) = some n := by
  interval_cases n <;> rfl

/-- Parsing a hex escape for a control character recovers that
character. -/
theorem parseStringBody_u00 (c : Char) (hc : c.toNat < 32) (tail : List Char) :
    parseStringBody ('\\' :: 'u' :: '0' :: '0'
        :: hexDigit (c.toNat / 16) :: hexDigit (c.toNat % 16) :: tail)
      = consStr c (parseStringBody tail) := by
  have hdiv : c.toNat / 16 < 16 := by omega
  have hmod : c.toNat % 16 < 16 := by omega
  have hvalid : Nat.isValidChar c.toNat := Or.inl (by omega)
  rw [parseStringBody.eq_def]
  simp only [Char.reduceEq, reduceIte, hexVal_hexDigit _ hdiv, hexVal_hexDigit _ hmod,
    show hexVal '0' = some 0 from rfl]
  rw [show ((0 * 16 + 0) * 16 + c.toNat / 16) * 16 + c.toNat % 16 = c.toNat from by omega]
  rw [dif_pos hvalid, Char.ofNat_toNat]

/-- Decoding inverts `JSON.stringify` string escaping: parsing a string
body made of the escaped characters of `p` followed by a closing quote
recovers exactly `p` and the input after the quote. -/
theorem parseStringBody_escape (p : List Char) :
    ∀ rest : List Char,
      parseStringBody (escapeList p ++ '"' :: rest) = some (p, rest) := by
  induction p with
  | nil =>
    intro rest
    rw [escapeList, List.nil_append, parseStringBody.eq_def]
    simp
  | cons c p ih =>
    intro rest
    rw [escapeList, List.append_assoc]
    unfold escapeChar
    split_ifs with h1 h2 h3 h4 h5 h6 h7 h8
    · subst h1; rw [parseStringBody.eq_def]; simp [consStr, ih]
    · subst h2; rw [parseStringBody.eq_def]; simp [consStr, ih]
    · subst h3; rw [parseStringBody.eq_def]; simp [consStr, ih]
    · subst h4; rw [parseStringBody.eq_def]; simp [consStr, ih]
    · subst h5; rw [parseStringBody.eq_def]; simp [consStr, ih]
    · subst h6; rw [parseStringBody.eq_def]; simp [consStr, ih]
    · subst h7; rw [parseStringBody.eq_def]; simp [consStr, ih]
    · simp only [List.cons_append, List.nil_append, parseStringBody_u00 c h8, ih, consStr]
    · -- an ordinary character stands for itself
      rw [List.cons_append, parseStringBody.eq_def]
      simp [h1, h2, h8, consStr, ih]

/-- Repackaging a string from its own characters gives it back. -/
theorem stringMkData (s : String) : String.mk s.data = s := rfl

/-- The characters of a packed character list are that list. -/
theorem stringDataMk (l : List Char) : (String.mk l).data = l := rfl

/-- Explicit character shape of the serialized `{ prompt }` payload. -/
theorem stringifyChars_prompt (p : String) :
    stringifyChars (promptJson p)
      = '\x7b' :: '"' :: 'p' :: 'r' :: 'o' :: 'm' :: 'p' :: 't' :: '"' :: ':' :: '"'
          :: (escapeList p.data ++ ['"', '\x7d']) := by
  have hk : escapeList ("prompt".data) = ['p', 'r', 'o', 'm', 'p', 't'] := rfl
  simp [promptJson, stringifyChars, stringifyObj, hk]

/-- Parsing a serialized string literal recovers the string. -/
theorem parseValue_strLit (f : Nat) (p : String) (tail : List Char) :
    parseValue (f + 1) ('"' :: (escapeList p.data ++ '"' :: tail))
      = some (Json.str p, tail) := by
  rw [parseValue.eq_def]
  simp [skipWs, parseStringBody_escape, stringMkData]

/-- Parsing the members of the serialized `{ prompt }` object recovers
its single member. -/
theorem parseMembers_promptKey (f : Nat) (p : String) :
    parseMembers ((f + 1) + 1)
        ('"' :: 'p' :: 'r' :: 'o' :: 'm' :: 'p' :: 't' :: '"' :: ':' :: '"'
          :: (escapeList p.data ++ ['"', '\x7d']))
      = some ([("prompt", Json.str p)], []) := by
  have hkey : parseStringBody
      ('p' :: 'r' :: 'o' :: 'm' :: 'p' :: 't' :: '"' :: ':' :: '"'
        :: (escapeList p.data ++ ['"', '\x7d']))
      = some ("prompt".data, ':' :: '"' :: (escapeList p.data ++ ['"', '\x7d'])) :=
    parseStringBody_escape "prompt".data
      (':' :: '"' :: (escapeList p.data ++ ['"', '\x7d']))
  rw [parseMembers.eq_def]
  simp only [hkey]
  rw [show skipWs (':' :: '"' :: (escapeList p.data ++ ['"', '\x7d']))
      = ':' :: '"' :: (escapeList p.data ++ ['"', '\x7d']) from by simp [skipWs]]
  simp only [parseValue_strLit f p ['\x7d']]
  rw [show skipWs ['\x7d'] = ['\x7d'] from by simp [skipWs]]
  simp [stringMkData]

/-- Parsing the serialized `{ prompt }` object with enough fuel recovers
the payload exactly, consuming the whole input. -/
theorem parseValue_promptObj (f : Nat) (p : String) :
    parseValue (((f + 1) + 1) + 1) (stringifyChars (promptJson p))
      = some (promptJson p, []) := by
  rw [stringifyChars_prompt, parseValue.eq_def]
  simp [skipWs, parseMembers_promptKey f p, promptJson]

/-- Round trip: decoding the serialized `{ prompt }` payload yields the
payload back, for every prompt string. -/
theorem parse_stringify_prompt (p : String) :
    Json.parse (Json.stringify (promptJson p)) = some (promptJson p) := by
  unfold Json.parse Json.stringify
  rw [stringDataMk]
  have hlen : (stringifyChars (promptJson p)).length + 1
      = ((((escapeList p.data).length + 11) + 1) + 1) + 1 := by
    rw [stringifyChars_prompt]
    simp
  rw [hlen, parseValue_promptObj ((escapeList p.data).length + 11) p]
  simp [skipWs]

/-- C1: for every string p, askAgent(p) sends exactly one HTTP POST
request, whose body is the JSON encoding of the one-key object
(prompt : p); decoding the body yields that object again, for every p,
including the empty string and strings needing JSON escaping; and the
trace shows no second request or other outbound effect. -/
theorem askAgent_single_request_roundtrip (server : Server) (p : String) :
    (askAgent server p).2 = [mkRequest p]
      ∧ (mkRequest p).body = Json.stringify (promptJson p)
      ∧ Json.parse (mkRequest p).body = some (promptJson p) :=
  ⟨rfl, rfl, parse_stringify_prompt p⟩

/-- C2: the single request issued by askAgent(p) uses method POST,
targets exactly http://localhost:8001/agent, and carries the header
Content-Type: application/json. -/
theorem askAgent_request_line (server : Server) (p : String) :
    (askAgent server p).2 = [mkRequest p]
      ∧ (mkRequest p).method = "POST"
      ∧ (mkRequest p).url = "http://localhost:8001/agent"
      ∧ (mkRequest p).headers = [("Content-Type", "application/json")] :=
  ⟨rfl, rfl, rfl, rfl⟩

/-- C3: whenever the server responds and the body is valid JSON,
askAgent returns exactly the decoded value, with no transformation or
validation. -/
theorem askAgent_returns_decoded_json (server : Server) (p : String)
    (status : Nat) (hdrs : List (String × String)) (body : String) (j : Json)
    (hresp : server (mkRequest p) = .success status hdrs body)
    (hdec : Json.parse body = some j) :
    (askAgent server p).1 = .ok j := by
  simp [askAgent, askAgentM, FetchM.run, handleResponse, hresp, hdec]

theorem askAgent_returns_decoded_json_witness :
    (askAgent (fun _ => .success 200 [] "\x7b\"ok\":true\x7d") "hi").1
      = .ok (Json.obj [("ok", Json.bool true)]) :=
  askAgent_returns_decoded_json _ "hi" 200 [] "\x7b\"ok\":true\x7d"
    (Json.obj [("ok", Json.bool true)]) rfl rfl

/-- C4: askAgent never branches on the status code: for every status,
the result is determined by decoding the body alone, returning the
decoded value on success and a decode error otherwise. -/
theorem askAgent_status_agnostic (server : Server) (p : String)
    (status : Nat) (hdrs : List (String × String)) (body : String)
    (hresp : server (mkRequest p) = .success status hdrs body) :
    (askAgent server p).1
      = match Json.parse body with
        | some j => Except.ok j
        | none => Except.error (AgentError.decode body) := by
  simp [askAgent, askAgentM, FetchM.run, handleResponse, hresp]

theorem askAgent_status_agnostic_witness :
    (askAgent (fun _ => .success 500 [] "\x7b\"error\":\"x\"\x7d") "hi").1
      = .ok (Json.obj [("error", Json.str "x")]) :=
  (askAgent_status_agnostic (fun _ => .success 500 [] "\x7b\"error\":\"x\"\x7d")
    "hi" 500 [] "\x7b\"error\":\"x\"\x7d" rfl).trans (by rfl)

/-- C5: if the network transaction fails, askAgent fails with the
propagated transport error, after having issued exactly the one request:
no retry, no fallback value, no partial result. -/
theorem askAgent_transport_error (server : Server) (p : String) (msg : String)
    (hresp : server (mkRequest p) = .transportError msg) :
    askAgent server p = (.error (.transport msg), [mkRequest p]) := by
  simp [askAgent, askAgentM, FetchM.run, handleResponse, hresp]

theorem askAgent_transport_error_witness :
    askAgent (fun _ => .transportError "connection refused") "hi"
      = (.error (.transport "connection refused"), [mkRequest "hi"]) :=
  askAgent_transport_error (fun _ => .transportError "connection refused")
    "hi" "connection refused" rfl

/-- C6: for every response whose body is not valid JSON, askAgent fails
with a propagated decode error carrying that body, regardless of the
status code. -/
theorem askAgent_decode_error (server : Server) (p : String)
    (status : Nat) (hdrs : List (String × String)) (body : String)
    (hresp : server (mkRequest p) = .success status hdrs body)
    (hbad : Json.parse body = none) :
    (askAgent server p).1 = .error (.decode body) := by
  simp [askAgent, askAgentM, FetchM.run, handleResponse, hresp, hbad]

theorem askAgent_decode_error_witness :
    (askAgent (fun _ => .success 200 [] "not json") "hi").1
      = .error (.decode "not json") :=
  askAgent_decode_error (fun _ => .success 200 [] "not json")
    "hi" 200 [] "not json" rfl rfl

/-- C7: overlapping calls with prompts p1 and p2 are independent: each
call issues exactly its own request, and each caller receives exactly
the handling of the response the network produced for its own request,
with no shared state and no cross-talk. -/
theorem askAgent_concurrent_independent (server : Server) (p1 p2 : String) :
    (askAgent server p1).1 = handleResponse (server (mkRequest p1))
      ∧ (askAgent server p2).1 = handleResponse (server (mkRequest p2))
      ∧ (askAgent server p1).2 = [mkRequest p1]
      ∧ (askAgent server p2).2 = [mkRequest p2] :=
  ⟨rfl, rfl, rfl, rfl⟩

/-- C8: the constructed request is a deterministic function of the
prompt alone, with constant URL, method and header set: requests for any
two prompts agree on those fields, and two calls with the same prompt
issue identical requests whatever the network does. -/
theorem askAgent_request_deterministic (p1 p2 : String) :
    (mkRequest p1).url = (mkRequest p2).url
      ∧ (mkRequest p1).method = (mkRequest p2).method
      ∧ (mkRequest p1).headers = (mkRequest p2).headers
      ∧ ∀ server1 server2 : Server,
          (askAgent server1 p1).2 = (askAgent server2 p1).2 :=
  ⟨rfl, rfl, rfl, fun _ _ => rfl⟩

/-- C9: the value askAgent returns depends only on the response body:
two responses with equal bodies but arbitrary status codes and headers
produce equal results. -/
theorem askAgent_depends_only_on_body (p : String) (server1 server2 : Server)
    (st1 st2 : Nat) (hd1 hd2 : List (String × String)) (body : String)
    (hr1 : server1 (mkRequest p) = .success st1 hd1 body)
    (hr2 : server2 (mkRequest p) = .success st2 hd2 body) :
    (askAgent server1 p).1 = (askAgent server2 p).1 := by
  simp [askAgent, askAgentM, FetchM.run, handleResponse, hr1, hr2]

theorem askAgent_depends_only_on_body_witness :
    (askAgent (fun _ => .success 200 [("Server", "nginx")] "\x7b\"ok\":true\x7d") "hi").1
      = (askAgent (fun _ => .success 500 [] "\x7b\"ok\":true\x7d") "hi").1 :=
  askAgent_depends_only_on_body "hi"
    (fun _ => .success 200 [("Server", "nginx")] "\x7b\"ok\":true\x7d")
    (fun _ => .success 500 [] "\x7b\"ok\":true\x7d")
    200 500 [("Server", "nginx")] [] "\x7b\"ok\":true\x7d" rfl rfl

/-- C10: request construction is total: serializing the one-key object
(prompt : p) succeeds for every string p and yields exactly the body the
request carries, so every call reaches the network step and the only
failure points are the transaction and the body decode. -/
theorem askAgent_serialization_total (p : String) :
    jsStringify (promptValue p) = some ((mkRequest p).body)
      ∧ ∀ server : Server,
          askAgent server p = (handleResponse (server (mkRequest p)), [mkRequest p]) := by
  constructor
  · simp [jsStringify, toJson, toJsonObj, promptValue, mkRequest, promptJson]
  · intro server
    rfl
